import Mathlib

/-!
Shallow embedding of the spatial transform and bounding-volume culling core:
the bounding primitives, `Plane`, `Frustum` and culling predicates of
`bevy_render/src/primitives/mod.rs`, the `Transform` / `GlobalTransform`
components of `bevy_transform/src/components`, and the
`ViewRangefinder3d` of `bevy_render/src/rangefinder.rs`.

The source works on `f64` scalars through the `glam` linear-algebra
dependency (`DVec3`, `DVec4`, `DMat3`, `DMat4`, `DQuat`, `DAffine3`).
Arithmetic is modelled as exact real arithmetic over `ℝ`; the `glam`
operations (an external dependency of the repository) are embedded by
their standard mathematical definitions, matching glam's formulas.
-/

noncomputable section

/-- Real-valued 3-vector, modelling glam `DVec3`. -/
@[ext]
structure Vec3 where
  x : ℝ
  y : ℝ
  z : ℝ

/-- Real-valued 4-vector, modelling glam `DVec4`. -/
@[ext]
structure Vec4 where
  x : ℝ
  y : ℝ
  z : ℝ
  w : ℝ

instance : Add Vec3 := ⟨fun a b => ⟨a.x + b.x, a.y + b.y, a.z + b.z⟩⟩

instance : Sub Vec3 := ⟨fun a b => ⟨a.x - b.x, a.y - b.y, a.z - b.z⟩⟩

instance : Neg Vec3 := ⟨fun a => ⟨-a.x, -a.y, -a.z⟩⟩

instance : Mul Vec3 := ⟨fun a b => ⟨a.x * b.x, a.y * b.y, a.z * b.z⟩⟩

instance : SMul ℝ Vec3 := ⟨fun c a => ⟨c * a.x, c * a.y, c * a.z⟩⟩

instance : Zero Vec3 := ⟨⟨0, 0, 0⟩⟩

instance : HDiv Vec3 ℝ Vec3 := ⟨fun a c => ⟨a.x / c, a.y / c, a.z / c⟩⟩

instance : Add Vec4 := ⟨fun a b => ⟨a.x + b.x, a.y + b.y, a.z + b.z, a.w + b.w⟩⟩

instance : Sub Vec4 := ⟨fun a b => ⟨a.x - b.x, a.y - b.y, a.z - b.z, a.w - b.w⟩⟩

instance : SMul ℝ Vec4 := ⟨fun c a => ⟨c * a.x, c * a.y, c * a.z, c * a.w⟩⟩

instance : Zero Vec4 := ⟨⟨0, 0, 0, 0⟩⟩

/-- glam `DVec3::dot`. -/
def Vec3.dot (a b : Vec3) : ℝ :=
  a.x * b.x + a.y * b.y + a.z * b.z

/-- glam `DVec3::cross`. -/
def Vec3.cross (a b : Vec3) : Vec3 :=
  ⟨a.y * b.z - a.z * b.y, a.z * b.x - a.x * b.z, a.x * b.y - a.y * b.x⟩

/-- glam `DVec3::abs`. -/
def Vec3.abs (a : Vec3) : Vec3 :=
  ⟨|a.x|, |a.y|, |a.z|⟩

/-- glam `DVec3::extend`. -/
def Vec3.extend (a : Vec3) (w : ℝ) : Vec4 :=
  ⟨a.x, a.y, a.z, w⟩

/-- glam `DVec3::length`: square root of the dot product with itself. -/
def Vec3.length (a : Vec3) : ℝ :=
  Real.sqrt (a.dot a)

/-- glam `DVec3::normalize`: multiplication by the reciprocal length. -/
def Vec3.normalize (a : Vec3) : Vec3 :=
  a.length⁻¹ • a

/-- glam `DVec4::dot`. -/
def Vec4.dot (a b : Vec4) : ℝ :=
  a.x * b.x + a.y * b.y + a.z * b.z + a.w * b.w

/-- glam `DVec4::xyz` (`truncate`). -/
def Vec4.xyz (a : Vec4) : Vec3 :=
  ⟨a.x, a.y, a.z⟩

/-- Real-valued column-major 4x4 matrix, modelling glam `DMat4`. -/
@[ext]
structure Mat4 where
  x_axis : Vec4
  y_axis : Vec4
  z_axis : Vec4
  w_axis : Vec4

/-- glam `DMat4::row`: the i-th component of each column. -/
def Mat4.row (m : Mat4) (i : Fin 4) : Vec4 :=
  match i with
  | 0 => ⟨m.x_axis.x, m.y_axis.x, m.z_axis.x, m.w_axis.x⟩
  | 1 => ⟨m.x_axis.y, m.y_axis.y, m.z_axis.y, m.w_axis.y⟩
  | 2 => ⟨m.x_axis.z, m.y_axis.z, m.z_axis.z, m.w_axis.z⟩
  | 3 => ⟨m.x_axis.w, m.y_axis.w, m.z_axis.w, m.w_axis.w⟩

/-- glam `DMat4::col`. -/
def Mat4.col (m : Mat4) (i : Fin 4) : Vec4 :=
  match i with
  | 0 => m.x_axis
  | 1 => m.y_axis
  | 2 => m.z_axis
  | 3 => m.w_axis

/-- glam `DMat4::mul_vec4`: linear combination of the columns. -/
def Mat4.mulVec4 (m : Mat4) (v : Vec4) : Vec4 :=
  v.x • m.x_axis + v.y • m.y_axis + v.z • m.z_axis + v.w • m.w_axis

/-- glam `DMat4::mul_mat4`: columns of the product are `m` applied to the
columns of the right factor. -/
def Mat4.mul (m n : Mat4) : Mat4 :=
  ⟨m.mulVec4 n.x_axis, m.mulVec4 n.y_axis, m.mulVec4 n.z_axis, m.mulVec4 n.w_axis⟩

/-- glam `DMat4::transform_point3`: apply to `(p, 1)` and truncate,
assuming an affine matrix. -/
def Mat4.transform_point3 (m : Mat4) (p : Vec3) : Vec3 :=
  (p.x • m.x_axis + p.y • m.y_axis + p.z • m.z_axis + m.w_axis).xyz

/-- glam `DMat4::from_translation`. -/
def Mat4.from_translation (t : Vec3) : Mat4 :=
  ⟨⟨1, 0, 0, 0⟩, ⟨0, 1, 0, 0⟩, ⟨0, 0, 1, 0⟩, ⟨t.x, t.y, t.z, 1⟩⟩

/-- glam `DMat4::IDENTITY`. -/
def Mat4.identity : Mat4 :=
  ⟨⟨1, 0, 0, 0⟩, ⟨0, 1, 0, 0⟩, ⟨0, 0, 1, 0⟩, ⟨0, 0, 0, 1⟩⟩

/-- The matrix has last row `(0,0,0,1)`, i.e. it is a 3d affine transform. -/
def Mat4.IsAffine (m : Mat4) : Prop :=
  m.x_axis.w = 0 ∧ m.y_axis.w = 0 ∧ m.z_axis.w = 0 ∧ m.w_axis.w = 1

/-- An Axis-Aligned Bounding Box (`Aabb` in `primitives/mod.rs`). -/
structure Aabb where
  center : Vec3
  half_extents : Vec3

/-- Source `Aabb::relative_radius`: relative radius of the AABB with respect to a
plane normal, given the three world axes. -/
def Aabb.relative_radius (aabb : Aabb) (p_normal : Vec3) (axes : Fin 3 → Vec3) : ℝ :=
  (Vec3.mk (p_normal.dot (axes 0)) (p_normal.dot (axes 1)) (p_normal.dot (axes 2))).abs.dot
    aabb.half_extents

/-- Source `Sphere` in `primitives/mod.rs`. -/
structure Sphere where
  center : Vec3
  radius : ℝ

/-- A plane (`Plane` in `primitives/mod.rs`): unit normal and signed
distance packed in a 4-vector. -/
structure Plane where
  normal_d : Vec4

/-- Source `Plane::new`: normalize the 4-vector by the reciprocal length of its
first three components. -/
def Plane.new (v : Vec4) : Plane :=
  ⟨(v.xyz.length)⁻¹ • v⟩

/-- Source `Plane::normal`. -/
def Plane.normal (p : Plane) : Vec3 :=
  ⟨p.normal_d.x, p.normal_d.y, p.normal_d.z⟩

/-- Source `Plane::d`. -/
def Plane.d (p : Plane) : ℝ :=
  p.normal_d.w

/-- Source `Frustum` in `primitives/mod.rs`: 6 planes ordered left, right, top,
bottom, near, far. -/
structure Frustum where
  planes : Fin 6 → Plane

/-- The indices of the planes tested by the culling predicates: the slice
`planes[..max]` with `max = 6` iff `intersect_far`. -/
def testedIdx (intersect_far : Bool) : List (Fin 6) :=
  (List.finRange 6).take (if intersect_far then 6 else 5)

/-- Source `Frustum::intersects_sphere`: the loop over `planes[..max]` returning
false on the first plane with `normal_d . (center,1) + radius <= 0`. -/
def Frustum.intersects_sphere (f : Frustum) (s : Sphere)
    (intersect_far : Bool) : Bool :=
  (testedIdx intersect_far).all fun i =>
    ! decide ((f.planes i).normal_d.dot (s.center.extend 1) + s.radius ≤ 0)

/-- The `axes` array built by both OBB tests: the first three components
of the three linear columns of the local-to-world matrix. -/
def worldAxes (m : Mat4) : Fin 3 → Vec3 := fun j =>
  match j with
  | 0 => m.x_axis.xyz
  | 1 => m.y_axis.xyz
  | 2 => m.z_axis.xyz

/-- Source `Frustum::intersects_obb`: the loop over `planes[..max]` with the
projected-radius test against each plane. -/
def Frustum.intersects_obb (f : Frustum) (aabb : Aabb)
    (model_to_world : Mat4) (intersect_far : Bool) : Bool :=
  let aabb_center_world := (model_to_world.transform_point3 aabb.center).extend 1
  let axes := worldAxes model_to_world
  (testedIdx intersect_far).all fun i =>
    let p_normal := (f.planes i).normal
    let relative_radius := aabb.relative_radius p_normal axes
    ! decide ((f.planes i).normal_d.dot aabb_center_world + relative_radius ≤ 0)

/-- Source `Sphere::intersects_obb`: distance from the sphere center to the OBB
center against the sum of radius and projected relative radius. -/
def Sphere.intersects_obb (s : Sphere) (aabb : Aabb)
    (local_to_world : Mat4) : Bool :=
  let aabb_center_world := local_to_world.mulVec4 (aabb.center.extend 1)
  let axes := worldAxes local_to_world
  let v := aabb_center_world.xyz - s.center
  let d := v.length
  let relative_radius := aabb.relative_radius (v / d) axes
  decide (d < s.radius + relative_radius)

/-- Source `Frustum::from_view_projection`: planes 0-4 from the rows of the
view-projection matrix (Lengyel-style), the far plane from the camera
translation, the backward direction and the far distance. -/
def Frustum.from_view_projection (view_projection : Mat4)
    (view_translation view_backward : Vec3) (far : ℝ) : Frustum :=
  let row3 := view_projection.row 3
  Frustum.mk fun i =>
    if h : i.val < 5 then
      let row := view_projection.row ⟨i.val / 2, by omega⟩
      Plane.new (if i.val % 2 = 0 ∧ i.val ≠ 4 then row3 + row else row3 - row)
    else
      let far_center := view_translation - far • view_backward
      Plane.new (view_backward.extend (-(view_backward.dot far_center)))

/-- Real-valued quaternion, modelling glam `DQuat`. -/
@[ext]
structure Quat where
  x : ℝ
  y : ℝ
  z : ℝ
  w : ℝ

/-- glam `DQuat::mul_quat` (Hamilton product). -/
instance : Mul Quat :=
  ⟨fun a b =>
    ⟨a.w * b.x + a.x * b.w + a.y * b.z - a.z * b.y,
     a.w * b.y - a.x * b.z + a.y * b.w + a.z * b.x,
     a.w * b.z + a.x * b.y - a.y * b.x + a.z * b.w,
     a.w * b.w - a.x * b.x - a.y * b.y - a.z * b.z⟩⟩

/-- glam `DQuat::mul_vec3`. -/
def Quat.mulVec3 (q : Quat) (v : Vec3) : Vec3 :=
  let w := q.w
  let b : Vec3 := ⟨q.x, q.y, q.z⟩
  let b2 := b.dot b
  (w * w - b2) • v + (v.dot b * 2) • b + (w * 2) • b.cross v

/-- Squared norm of a quaternion; `= 1` states the `UnitQuaternion`
invariant of the data model. -/
def Quat.normSq (q : Quat) : ℝ :=
  q.x * q.x + q.y * q.y + q.z * q.z + q.w * q.w

/-- Real-valued column-major 3x3 matrix, modelling glam `DMat3`. -/
@[ext]
structure Mat3 where
  x_axis : Vec3
  y_axis : Vec3
  z_axis : Vec3

/-- glam `DMat3::mul_vec3`: linear combination of the columns. -/
def Mat3.mulVec3 (m : Mat3) (v : Vec3) : Vec3 :=
  v.x • m.x_axis + v.y • m.y_axis + v.z • m.z_axis

/-- glam `DMat3::mul_mat3`. -/
def Mat3.mul (m n : Mat3) : Mat3 :=
  ⟨m.mulVec3 n.x_axis, m.mulVec3 n.y_axis, m.mulVec3 n.z_axis⟩

/-- glam `DMat3::IDENTITY`. -/
def Mat3.identity : Mat3 :=
  ⟨⟨1, 0, 0⟩, ⟨0, 1, 0⟩, ⟨0, 0, 1⟩⟩

/-- glam `DMat3::from_quat`. -/
def Mat3.from_quat (q : Quat) : Mat3 :=
  let x2 := q.x + q.x
  let y2 := q.y + q.y
  let z2 := q.z + q.z
  let xx := q.x * x2
  let xy := q.x * y2
  let xz := q.x * z2
  let yy := q.y * y2
  let yz := q.y * z2
  let zz := q.z * z2
  let wx := q.w * x2
  let wy := q.w * y2
  let wz := q.w * z2
  ⟨⟨1 - (yy + zz), xy + wz, xz - wy⟩,
   ⟨xy - wz, 1 - (xx + zz), yz + wx⟩,
   ⟨xz + wy, yz - wx, 1 - (xx + yy)⟩⟩

/-- glam `DMat3::determinant`. -/
def Mat3.determinant (m : Mat3) : ℝ :=
  m.z_axis.dot (m.x_axis.cross m.y_axis)

/-- Rust `f64::signum` restricted to real values (no NaN, no signed zero). -/
def signum (x : ℝ) : ℝ :=
  if x < 0 then -1 else 1

/-- glam `DVec3::recip`. -/
def Vec3.recip (v : Vec3) : Vec3 :=
  ⟨v.x⁻¹, v.y⁻¹, v.z⁻¹⟩

/-- glam `DQuat::from_rotation_axes` (used by `DQuat::from_mat3`): the
DirectXMath-style branchy extraction of a quaternion from a rotation
matrix given by columns. -/
def Quat.from_rotation_axes (x_axis y_axis z_axis : Vec3) : Quat :=
  let m00 := x_axis.x
  let m01 := x_axis.y
  let m02 := x_axis.z
  let m10 := y_axis.x
  let m11 := y_axis.y
  let m12 := y_axis.z
  let m20 := z_axis.x
  let m21 := z_axis.y
  let m22 := z_axis.z
  if m22 ≤ 0 then
    let dif10 := m11 - m00
    let omm22 := 1 - m22
    if dif10 ≤ 0 then
      let four_xsq := omm22 - dif10
      let inv4x := 0.5 / Real.sqrt four_xsq
      ⟨four_xsq * inv4x, (m01 + m10) * inv4x, (m02 + m20) * inv4x,
        (m12 - m21) * inv4x⟩
    else
      let four_ysq := omm22 + dif10
      let inv4y := 0.5 / Real.sqrt four_ysq
      ⟨(m01 + m10) * inv4y, four_ysq * inv4y, (m12 + m21) * inv4y,
        (m20 - m02) * inv4y⟩
  else
    let sum10 := m11 + m00
    let opm22 := 1 + m22
    if sum10 ≤ 0 then
      let four_zsq := opm22 - sum10
      let inv4z := 0.5 / Real.sqrt four_zsq
      ⟨(m02 + m20) * inv4z, (m12 + m21) * inv4z, four_zsq * inv4z,
        (m01 - m10) * inv4z⟩
    else
      let four_wsq := opm22 + sum10
      let inv4w := 0.5 / Real.sqrt four_wsq
      ⟨(m12 - m21) * inv4w, (m20 - m02) * inv4w, (m01 - m10) * inv4w,
        four_wsq * inv4w⟩

/-- glam `DQuat::from_mat3`. -/
def Quat.from_mat3 (m : Mat3) : Quat :=
  Quat.from_rotation_axes m.x_axis m.y_axis m.z_axis

/-- Real-valued 3d affine transform, modelling glam `DAffine3`. -/
@[ext]
structure Affine3 where
  matrix3 : Mat3
  translation : Vec3

/-- glam `DAffine3::IDENTITY`. -/
def Affine3.identity : Affine3 :=
  ⟨Mat3.identity, 0⟩

/-- glam `DAffine3` multiplication: compose the linear parts, map the
right translation through the left linear part and add. -/
def Affine3.mul (a b : Affine3) : Affine3 :=
  ⟨a.matrix3.mul b.matrix3, a.matrix3.mulVec3 b.translation + a.translation⟩

/-- glam `DAffine3::transform_point3`. -/
def Affine3.transform_point3 (a : Affine3) (p : Vec3) : Vec3 :=
  a.matrix3.mulVec3 p + a.translation

/-- glam `DAffine3::from_scale_rotation_translation`: rotation matrix from
the quaternion with columns scaled componentwise. -/
def Affine3.from_scale_rotation_translation (scale : Vec3) (q : Quat) (t : Vec3) :
    Affine3 :=
  let r := Mat3.from_quat q
  ⟨⟨scale.x • r.x_axis, scale.y • r.y_axis, scale.z • r.z_axis⟩, t⟩

/-- glam `DAffine3::to_scale_rotation_translation`: column lengths (the
first signed by the determinant) as scale, quaternion extracted from the
de-scaled columns. -/
def Affine3.to_scale_rotation_translation (a : Affine3) : Vec3 × Quat × Vec3 :=
  let det := a.matrix3.determinant
  let scale : Vec3 :=
    ⟨a.matrix3.x_axis.length * signum det, a.matrix3.y_axis.length,
      a.matrix3.z_axis.length⟩
  let inv_scale := scale.recip
  let r := Quat.from_mat3
    ⟨inv_scale.x • a.matrix3.x_axis, inv_scale.y • a.matrix3.y_axis,
      inv_scale.z • a.matrix3.z_axis⟩
  (scale, r, a.translation)

/-- Source `Transform` in `bevy_transform/src/components/transform.rs`. -/
@[ext]
structure Transform where
  translation : Vec3
  rotation : Quat
  scale : Vec3

/-- Source `Transform::transform_point`: apply scale, then rotation, then add
translation. -/
def Transform.transform_point (t : Transform) (p : Vec3) : Vec3 :=
  t.rotation.mulVec3 (t.scale * p) + t.translation

/-- Source `Transform::mul_transform`. -/
def Transform.mul_transform (t u : Transform) : Transform :=
  ⟨t.transform_point u.translation, t.rotation * u.rotation, t.scale * u.scale⟩

/-- Source `Transform::compute_affine`. -/
def Transform.compute_affine (t : Transform) : Affine3 :=
  Affine3.from_scale_rotation_translation t.scale t.rotation t.translation

/-- Source `GlobalTransform` in
`bevy_transform/src/components/global_transform.rs`: a single affine
transform. -/
@[ext]
structure GlobalTransform where
  affine : Affine3

/-- Source `GlobalTransform::IDENTITY`. -/
def GlobalTransform.IDENTITY : GlobalTransform :=
  ⟨Affine3.identity⟩

/-- Source `GlobalTransform::mul_transform`: multiply the stored affine transform
by the transform's affine matrix. -/
def GlobalTransform.mul_transform (g : GlobalTransform) (t : Transform) :
    GlobalTransform :=
  ⟨g.affine.mul t.compute_affine⟩

/-- Source `GlobalTransform::transform_point`. -/
def GlobalTransform.transform_point (g : GlobalTransform) (p : Vec3) : Vec3 :=
  g.affine.transform_point3 p

/-- Source `GlobalTransform::compute_transform`. -/
def GlobalTransform.compute_transform (g : GlobalTransform) : Transform :=
  let srt := g.affine.to_scale_rotation_translation
  ⟨srt.2.2, srt.2.1, srt.1⟩

/-- Determinant of a 3x3 matrix given row by row. -/
def det3 (a b c d e f g h i : ℝ) : ℝ :=
  a * (e * i - f * h) - b * (d * i - f * g) + c * (d * h - e * g)

/-- glam `DMat4::determinant` (expansion along the first row; entry at
row r of column c is component r of the axis c). -/
def Mat4.det (m : Mat4) : ℝ :=
  m.x_axis.x * det3 m.y_axis.y m.z_axis.y m.w_axis.y m.y_axis.z m.z_axis.z
      m.w_axis.z m.y_axis.w m.z_axis.w m.w_axis.w
    - m.y_axis.x * det3 m.x_axis.y m.z_axis.y m.w_axis.y m.x_axis.z m.z_axis.z
      m.w_axis.z m.x_axis.w m.z_axis.w m.w_axis.w
    + m.z_axis.x * det3 m.x_axis.y m.y_axis.y m.w_axis.y m.x_axis.z m.y_axis.z
      m.w_axis.z m.x_axis.w m.y_axis.w m.w_axis.w
    - m.w_axis.x * det3 m.x_axis.y m.y_axis.y m.z_axis.y m.x_axis.z m.y_axis.z
      m.z_axis.z m.x_axis.w m.y_axis.w m.z_axis.w

/-- glam `DMat4::inverse`: the cofactor (adjugate) expansion multiplied by
the reciprocal determinant, written out entry by entry.  Entry (r, c) of
the inverse is `(-1)^(r+c)` times the minor obtained by deleting row c and
column r, divided by the determinant. -/
def Mat4.inverse (m : Mat4) : Mat4 :=
  let d := m.det⁻¹
  let i00 := det3 m.y_axis.y m.z_axis.y m.w_axis.y m.y_axis.z m.z_axis.z
    m.w_axis.z m.y_axis.w m.z_axis.w m.w_axis.w
  let i01 := det3 m.x_axis.y m.z_axis.y m.w_axis.y m.x_axis.z m.z_axis.z
    m.w_axis.z m.x_axis.w m.z_axis.w m.w_axis.w
  let i02 := det3 m.x_axis.y m.y_axis.y m.w_axis.y m.x_axis.z m.y_axis.z
    m.w_axis.z m.x_axis.w m.y_axis.w m.w_axis.w
  let i03 := det3 m.x_axis.y m.y_axis.y m.z_axis.y m.x_axis.z m.y_axis.z
    m.z_axis.z m.x_axis.w m.y_axis.w m.z_axis.w
  let i10 := det3 m.y_axis.x m.z_axis.x m.w_axis.x m.y_axis.z m.z_axis.z
    m.w_axis.z m.y_axis.w m.z_axis.w m.w_axis.w
  let i11 := det3 m.x_axis.x m.z_axis.x m.w_axis.x m.x_axis.z m.z_axis.z
    m.w_axis.z m.x_axis.w m.z_axis.w m.w_axis.w
  let i12 := det3 m.x_axis.x m.y_axis.x m.w_axis.x m.x_axis.z m.y_axis.z
    m.w_axis.z m.x_axis.w m.y_axis.w m.w_axis.w
  let i13 := det3 m.x_axis.x m.y_axis.x m.z_axis.x m.x_axis.z m.y_axis.z
    m.z_axis.z m.x_axis.w m.y_axis.w m.z_axis.w
  let i20 := det3 m.y_axis.x m.z_axis.x m.w_axis.x m.y_axis.y m.z_axis.y
    m.w_axis.y m.y_axis.w m.z_axis.w m.w_axis.w
  let i21 := det3 m.x_axis.x m.z_axis.x m.w_axis.x m.x_axis.y m.z_axis.y
    m.w_axis.y m.x_axis.w m.z_axis.w m.w_axis.w
  let i22 := det3 m.x_axis.x m.y_axis.x m.w_axis.x m.x_axis.y m.y_axis.y
    m.w_axis.y m.x_axis.w m.y_axis.w m.w_axis.w
  let i23 := det3 m.x_axis.x m.y_axis.x m.z_axis.x m.x_axis.y m.y_axis.y
    m.z_axis.y m.x_axis.w m.y_axis.w m.z_axis.w
  let i30 := det3 m.y_axis.x m.z_axis.x m.w_axis.x m.y_axis.y m.z_axis.y
    m.w_axis.y m.y_axis.z m.z_axis.z m.w_axis.z
  let i31 := det3 m.x_axis.x m.z_axis.x m.w_axis.x m.x_axis.y m.z_axis.y
    m.w_axis.y m.x_axis.z m.z_axis.z m.w_axis.z
  let i32 := det3 m.x_axis.x m.y_axis.x m.w_axis.x m.x_axis.y m.y_axis.y
    m.w_axis.y m.x_axis.z m.y_axis.z m.w_axis.z
  let i33 := det3 m.x_axis.x m.y_axis.x m.z_axis.x m.x_axis.y m.y_axis.y
    m.z_axis.y m.x_axis.z m.y_axis.z m.z_axis.z
  ⟨⟨d * i00, d * -i01, d * i02, d * -i03⟩,
   ⟨d * -i10, d * i11, d * -i12, d * i13⟩,
   ⟨d * i20, d * -i21, d * i22, d * -i23⟩,
   ⟨d * -i30, d * i31, d * -i32, d * i33⟩⟩

/-- Source `ViewRangefinder3d` in `bevy_render/src/rangefinder.rs`. -/
structure ViewRangefinder3d where
  inverse_view_row_2 : Vec4

/-- Source `ViewRangefinder3d::from_view_matrix`: invert the view matrix and keep
row 2 of the inverse. -/
def ViewRangefinder3d.from_view_matrix (view_matrix : Mat4) : ViewRangefinder3d :=
  ⟨view_matrix.inverse.row 2⟩

/-- Source `ViewRangefinder3d::distance`: the stored row dotted with column 3 of
the transform. -/
def ViewRangefinder3d.distance (r : ViewRangefinder3d) (transform : Mat4) : ℝ :=
  r.inverse_view_row_2.dot (transform.col 3)

/-- The 4x4 matrix of the similarity map `x -> s * R * x + v`. -/
def similarityMat4 (s : ℝ) (R : Mat3) (v : Vec3) : Mat4 :=
  ⟨(s • R.x_axis).extend 0, (s • R.y_axis).extend 0, (s • R.z_axis).extend 0,
    v.extend 1⟩

/-- Image of a plane (unit normal n, distance d) under the similarity map
`x -> s * R * x + v`: normal `R n`, distance `s d - (R n) . v`. -/
def Plane.mapSimilarity (p : Plane) (s : ℝ) (R : Mat3) (v : Vec3) : Plane :=
  let n := R.mulVec3 p.normal
  ⟨n.extend (s * p.d - n.dot v)⟩

/-- A frustum with every plane mapped by the similarity map. -/
def Frustum.mapSimilarity (f : Frustum) (s : ℝ) (R : Mat3) (v : Vec3) : Frustum :=
  ⟨fun i => (f.planes i).mapSimilarity s R v⟩

/-- The linear map of the matrix preserves dot products (orthogonality);
rotations are exactly the orientation-preserving such maps. -/
def Mat3.PreservesDot (R : Mat3) : Prop :=
  ∀ u v : Vec3, (R.mulVec3 u).dot (R.mulVec3 v) = u.dot v

/-- A box-shaped frustum: the six planes `x > -1`, `-x > -1`, `y > -1`,
`-y > -1`, `z > -1`, `-z > -1`, with unit axis-aligned normals. -/
def cubeFrustum : Frustum :=
  ⟨fun i =>
    match i with
    | 0 => ⟨⟨1, 0, 0, 1⟩⟩
    | 1 => ⟨⟨-1, 0, 0, 1⟩⟩
    | 2 => ⟨⟨0, 1, 0, 1⟩⟩
    | 3 => ⟨⟨0, -1, 0, 1⟩⟩
    | 4 => ⟨⟨0, 0, 1, 1⟩⟩
    | 5 => ⟨⟨0, 0, -1, 1⟩⟩⟩

/-- A concrete view-projection matrix whose rows 2 and 3 differ, used to
separate the two candidate near-plane constructions. -/
def vpSample : Mat4 :=
  ⟨⟨0, 0, 1, 0⟩, 0, 0, 0⟩

/-- A concrete transform with unit rotation quaternion `(0,0,0,-1)` (the
antipode of the identity) and identity translation and scale. -/
def tNegIdentity : Transform :=
  ⟨0, ⟨0, 0, 0, -1⟩, ⟨1, 1, 1⟩⟩

@[simp] lemma Vec3.add_x (a b : Vec3) : (a + b).x = a.x + b.x := rfl

@[simp] lemma Vec3.add_y (a b : Vec3) : (a + b).y = a.y + b.y := rfl

@[simp] lemma Vec3.add_z (a b : Vec3) : (a + b).z = a.z + b.z := rfl

@[simp] lemma Vec3.sub_x (a b : Vec3) : (a - b).x = a.x - b.x := rfl

@[simp] lemma Vec3.sub_y (a b : Vec3) : (a - b).y = a.y - b.y := rfl

@[simp] lemma Vec3.sub_z (a b : Vec3) : (a - b).z = a.z - b.z := rfl

@[simp] lemma Vec3.neg_x (a : Vec3) : (-a).x = -a.x := rfl

@[simp] lemma Vec3.neg_y (a : Vec3) : (-a).y = -a.y := rfl

@[simp] lemma Vec3.neg_z (a : Vec3) : (-a).z = -a.z := rfl

@[simp] lemma Vec3.mul_x (a b : Vec3) : (a * b).x = a.x * b.x := rfl

@[simp] lemma Vec3.mul_y (a b : Vec3) : (a * b).y = a.y * b.y := rfl

@[simp] lemma Vec3.mul_z (a b : Vec3) : (a * b).z = a.z * b.z := rfl

@[simp] lemma Vec3.smul_x (c : ℝ) (a : Vec3) : (c • a).x = c * a.x := rfl

@[simp] lemma Vec3.smul_y (c : ℝ) (a : Vec3) : (c • a).y = c * a.y := rfl

@[simp] lemma Vec3.smul_z (c : ℝ) (a : Vec3) : (c • a).z = c * a.z := rfl

@[simp] lemma Vec3.zero_x : (0 : Vec3).x = 0 := rfl

@[simp] lemma Vec3.zero_y : (0 : Vec3).y = 0 := rfl

@[simp] lemma Vec3.zero_z : (0 : Vec3).z = 0 := rfl

@[simp] lemma Vec3.div_x (a : Vec3) (c : ℝ) : (a / c).x = a.x / c := rfl

@[simp] lemma Vec3.div_y (a : Vec3) (c : ℝ) : (a / c).y = a.y / c := rfl

@[simp] lemma Vec3.div_z (a : Vec3) (c : ℝ) : (a / c).z = a.z / c := rfl

@[simp] lemma Vec4.add4_x (a b : Vec4) : (a + b).x = a.x + b.x := rfl

@[simp] lemma Vec4.add4_y (a b : Vec4) : (a + b).y = a.y + b.y := rfl

@[simp] lemma Vec4.add4_z (a b : Vec4) : (a + b).z = a.z + b.z := rfl

@[simp] lemma Vec4.add4_w (a b : Vec4) : (a + b).w = a.w + b.w := rfl

@[simp] lemma Vec4.sub4_x (a b : Vec4) : (a - b).x = a.x - b.x := rfl

@[simp] lemma Vec4.sub4_y (a b : Vec4) : (a - b).y = a.y - b.y := rfl

@[simp] lemma Vec4.sub4_z (a b : Vec4) : (a - b).z = a.z - b.z := rfl

@[simp] lemma Vec4.sub4_w (a b : Vec4) : (a - b).w = a.w - b.w := rfl

@[simp] lemma Vec4.smul4_x (c : ℝ) (a : Vec4) : (c • a).x = c * a.x := rfl

@[simp] lemma Vec4.smul4_y (c : ℝ) (a : Vec4) : (c • a).y = c * a.y := rfl

@[simp] lemma Vec4.smul4_z (c : ℝ) (a : Vec4) : (c • a).z = c * a.z := rfl

@[simp] lemma Vec4.smul4_w (c : ℝ) (a : Vec4) : (c • a).w = c * a.w := rfl

@[simp] lemma Vec4.zero4_x : (0 : Vec4).x = 0 := rfl

@[simp] lemma Vec4.zero4_y : (0 : Vec4).y = 0 := rfl

@[simp] lemma Vec4.zero4_z : (0 : Vec4).z = 0 := rfl

@[simp] lemma Vec4.zero4_w : (0 : Vec4).w = 0 := rfl

lemma mem_testedIdx (b : Bool) (i : Fin 6) :
    i ∈ testedIdx b ↔ (i.val < 5 ∨ (b = true ∧ i.val = 5)) := by
  cases b
  · revert i
    decide
  · revert i
    decide

lemma intersects_sphere_false_char (f : Frustum) (s : Sphere) (b : Bool) :
    f.intersects_sphere s b = false ↔
      ∃ i : Fin 6, (i.val < 5 ∨ (b = true ∧ i.val = 5)) ∧
        (f.planes i).normal_d.dot (s.center.extend 1) + s.radius ≤ 0 := by
  rw [← Bool.not_eq_true]
  simp only [Frustum.intersects_sphere, List.all_eq_true, mem_testedIdx,
    Bool.not_eq_true', decide_eq_false_iff_not, not_forall]
  constructor
  · rintro ⟨i, hi, hc⟩
    exact ⟨i, hi, by simpa using hc⟩
  · rintro ⟨i, hi, hc⟩
    exact ⟨i, hi, by simpa using hc⟩

lemma intersects_obb_false_char (f : Frustum) (aabb : Aabb) (m : Mat4) (b : Bool) :
    f.intersects_obb aabb m b = false ↔
      ∃ i : Fin 6, (i.val < 5 ∨ (b = true ∧ i.val = 5)) ∧
        (f.planes i).normal_d.dot ((m.transform_point3 aabb.center).extend 1) +
          aabb.relative_radius (f.planes i).normal (worldAxes m) ≤ 0 := by
  rw [← Bool.not_eq_true]
  simp only [Frustum.intersects_obb, List.all_eq_true, mem_testedIdx,
    Bool.not_eq_true', decide_eq_false_iff_not, not_forall]
  constructor
  · rintro ⟨i, hi, hc⟩
    exact ⟨i, hi, by simpa using hc⟩
  · rintro ⟨i, hi, hc⟩
    exact ⟨i, hi, by simpa using hc⟩

/-- C1: `Frustum::intersects_sphere(sphere, intersect_far)` returns false
iff some tested plane (the first 5 planes, plus the 6th plane exactly when
`intersect_far` is true) satisfies
`dot(plane.normal_d(), (sphere.center, 1)) + sphere.radius <= 0`;
otherwise it returns true. -/
theorem intersects_sphere_false_iff (f : Frustum) (s : Sphere) (b : Bool) :
    f.intersects_sphere s b = false ↔
      ∃ i : Fin 6, (i.val < 5 ∨ (b = true ∧ i.val = 5)) ∧
        (f.planes i).normal_d.dot (s.center.extend 1) + s.radius ≤ 0 :=
  intersects_sphere_false_char f s b

/-- C2: `Frustum::intersects_obb` computes the OBB world-space center as
`model_to_world` applied to `aabb.center` and, per tested plane with
normal n, the relative radius
`|dot(n, axis_x)| * he.x + |dot(n, axis_y)| * he.y + |dot(n, axis_z)| * he.z`
over the columns of the linear part; it returns false iff some tested
plane satisfies `dot(plane.normal_d(), (center, 1)) + relative_radius <= 0`
and true otherwise. -/
theorem intersects_obb_false_iff (f : Frustum) (aabb : Aabb) (m : Mat4) (b : Bool) :
    f.intersects_obb aabb m b = false ↔
      ∃ i : Fin 6, (i.val < 5 ∨ (b = true ∧ i.val = 5)) ∧
        (f.planes i).normal_d.dot ((m.transform_point3 aabb.center).extend 1) +
          (|(f.planes i).normal.dot m.x_axis.xyz| * aabb.half_extents.x +
            |(f.planes i).normal.dot m.y_axis.xyz| * aabb.half_extents.y +
            |(f.planes i).normal.dot m.z_axis.xyz| * aabb.half_extents.z) ≤ 0 := by
  rw [intersects_obb_false_char]
  have haxes : ∀ n : Vec3, aabb.relative_radius n (worldAxes m) =
      |n.dot m.x_axis.xyz| * aabb.half_extents.x +
        |n.dot m.y_axis.xyz| * aabb.half_extents.y +
        |n.dot m.z_axis.xyz| * aabb.half_extents.z := by
    intro n
    simp only [Aabb.relative_radius, worldAxes, Vec3.abs, Vec3.dot]
  constructor
  · rintro ⟨i, hi, hc⟩
    exact ⟨i, hi, by rw [haxes] at hc; exact hc⟩
  · rintro ⟨i, hi, hc⟩
    exact ⟨i, hi, by rw [haxes]; exact hc⟩

/-- C3: `intersects_sphere` is conservative.  If the frustum's 6 planes
have unit normals, the radius is non-negative, and every point of the
sphere lies strictly inside all 6 half-spaces, then
`Frustum::intersects_sphere(sphere, true)` returns true. -/
theorem intersects_sphere_conservative (f : Frustum) (s : Sphere)
    (hn : ∀ i : Fin 6, (f.planes i).normal.dot (f.planes i).normal = 1)
    (hr : 0 ≤ s.radius)
    (hin : ∀ p : Vec3, (p - s.center).dot (p - s.center) ≤ s.radius ^ 2 →
      ∀ i : Fin 6, 0 < (f.planes i).normal.dot p + (f.planes i).d) :
    f.intersects_sphere s true = true := by
  have key : ∀ i : Fin 6,
      ¬ ((f.planes i).normal_d.dot (s.center.extend 1) + s.radius ≤ 0) := by
    intro i hle
    have hdot : (f.planes i).normal_d.dot (s.center.extend 1) =
        (f.planes i).normal.dot s.center + (f.planes i).d := by
      simp only [Vec4.dot, Vec3.dot, Vec3.extend, Plane.normal, Plane.d]
      ring
    have hnn := hn i
    have hmem : ((s.center - s.radius • (f.planes i).normal) - s.center).dot
        ((s.center - s.radius • (f.planes i).normal) - s.center) ≤ s.radius ^ 2 := by
      have heq : ((s.center - s.radius • (f.planes i).normal) - s.center).dot
          ((s.center - s.radius • (f.planes i).normal) - s.center) = s.radius ^ 2 := by
        simp only [Vec3.dot, Vec3.sub_x, Vec3.sub_y, Vec3.sub_z, Vec3.smul_x,
          Vec3.smul_y, Vec3.smul_z] at hnn ⊢
        linear_combination (s.radius ^ 2) * hnn
      exact heq.le
    have hpos := hin _ hmem i
    have hnc : (f.planes i).normal.dot (s.center - s.radius • (f.planes i).normal) =
        (f.planes i).normal.dot s.center -
          s.radius * ((f.planes i).normal.dot (f.planes i).normal) := by
      simp only [Vec3.dot, Vec3.sub_x, Vec3.sub_y, Vec3.sub_z, Vec3.smul_x,
        Vec3.smul_y, Vec3.smul_z]
      ring
    rw [hnc, hnn] at hpos
    rw [hdot] at hle
    linarith
  have hfalse : ¬ f.intersects_sphere s true = false := by
    rw [intersects_sphere_false_char]
    rintro ⟨i, -, hle⟩
    exact key i hle
  cases h : f.intersects_sphere s true
  · exact absurd h hfalse
  · rfl

/-- Witness for C3: the box frustum with unit axis-aligned normals
contains the sphere of radius 1/2 at the origin, and the test accepts. -/
theorem intersects_sphere_conservative_witness :
    (∀ i : Fin 6,
      (cubeFrustum.planes i).normal.dot (cubeFrustum.planes i).normal = 1) ∧
    (0 ≤ (Sphere.mk 0 (1/2)).radius) ∧
    (∀ p : Vec3, (p - (0 : Vec3)).dot (p - (0 : Vec3)) ≤ (1/2 : ℝ) ^ 2 →
      ∀ i : Fin 6,
        0 < (cubeFrustum.planes i).normal.dot p + (cubeFrustum.planes i).d) ∧
    cubeFrustum.intersects_sphere (Sphere.mk 0 (1/2)) true = true := by
  have h1 : ∀ i : Fin 6,
      (cubeFrustum.planes i).normal.dot (cubeFrustum.planes i).normal = 1 := by
    intro i
    fin_cases i <;> norm_num [cubeFrustum, Plane.normal, Vec3.dot]
  have h3 : ∀ p : Vec3, (p - (0 : Vec3)).dot (p - (0 : Vec3)) ≤ (1/2 : ℝ) ^ 2 →
      ∀ i : Fin 6,
        0 < (cubeFrustum.planes i).normal.dot p + (cubeFrustum.planes i).d := by
    intro p hp i
    have hp' : p.x ^ 2 + p.y ^ 2 + p.z ^ 2 ≤ (1/2 : ℝ) ^ 2 := by
      have := hp
      simp only [Vec3.dot, Vec3.sub_x, Vec3.sub_y, Vec3.sub_z, Vec3.zero_x,
        Vec3.zero_y, Vec3.zero_z, sub_zero] at this
      nlinarith [this]
    fin_cases i <;>
      simp only [cubeFrustum, Plane.normal, Plane.d, Vec3.dot] <;>
      nlinarith [hp', sq_nonneg (2 * p.x + 1), sq_nonneg (2 * p.x - 1),
        sq_nonneg (2 * p.y + 1), sq_nonneg (2 * p.y - 1),
        sq_nonneg (2 * p.z + 1), sq_nonneg (2 * p.z - 1)]
  exact ⟨h1, by norm_num, h3,
    intersects_sphere_conservative cubeFrustum (Sphere.mk 0 (1/2)) h1
      (by norm_num) h3⟩

lemma Vec3.dot_self_nonneg (v : Vec3) : 0 ≤ v.dot v := by
  simp only [Vec3.dot]
  nlinarith [sq_nonneg v.x, sq_nonneg v.y, sq_nonneg v.z]

lemma Vec3.dot_self_pos (v : Vec3) (h : v ≠ 0) : 0 < v.dot v := by
  rcases (Vec3.dot_self_nonneg v).lt_or_eq with hlt | heq
  · exact hlt
  · exfalso
    apply h
    have hx : v.x ^ 2 = 0 := by
      simp only [Vec3.dot] at heq
      nlinarith [sq_nonneg v.x, sq_nonneg v.y, sq_nonneg v.z]
    have hy : v.y ^ 2 = 0 := by
      simp only [Vec3.dot] at heq
      nlinarith [sq_nonneg v.x, sq_nonneg v.y, sq_nonneg v.z]
    have hz : v.z ^ 2 = 0 := by
      simp only [Vec3.dot] at heq
      nlinarith [sq_nonneg v.x, sq_nonneg v.y, sq_nonneg v.z]
    ext
    · exact pow_eq_zero_iff two_ne_zero |>.mp hx
    · exact pow_eq_zero_iff two_ne_zero |>.mp hy
    · exact pow_eq_zero_iff two_ne_zero |>.mp hz

/-- C4 (amended): `Frustum::from_view_projection` sets plane i, for i in
0..=3, to `Plane::new(row3 + row(i/2))` for even i and
`Plane::new(row3 - row(i/2))` for odd i, and sets the near plane
(index 4) to `Plane::new(row3 - row(2))` — the minus combination, not the
plus one. -/
theorem from_view_projection_planes (vp : Mat4) (vt vb : Vec3) (far : ℝ) :
    (Frustum.from_view_projection vp vt vb far).planes 0 =
        Plane.new (vp.row 3 + vp.row 0) ∧
    (Frustum.from_view_projection vp vt vb far).planes 1 =
        Plane.new (vp.row 3 - vp.row 0) ∧
    (Frustum.from_view_projection vp vt vb far).planes 2 =
        Plane.new (vp.row 3 + vp.row 1) ∧
    (Frustum.from_view_projection vp vt vb far).planes 3 =
        Plane.new (vp.row 3 - vp.row 1) ∧
    (Frustum.from_view_projection vp vt vb far).planes 4 =
        Plane.new (vp.row 3 - vp.row 2) := by
  refine ⟨?_, ?_, ?_, ?_, ?_⟩ <;>
    (norm_num [Frustum.from_view_projection, show ((0 : Fin 6) : ℕ) = 0 from rfl,
      show ((1 : Fin 6) : ℕ) = 1 from rfl, show ((2 : Fin 6) : ℕ) = 2 from rfl,
      show ((3 : Fin 6) : ℕ) = 3 from rfl, show ((4 : Fin 6) : ℕ) = 4 from rfl];
      try rfl)

/-- Counterexample for C4: at a concrete view-projection matrix the near
plane (index 4) differs from `Plane::new(row3 + row(2))`; the code uses
`row3 - row(2)`. -/
theorem near_plane_not_plus_row2 :
    (Frustum.from_view_projection vpSample 0 0 0).planes 4 ≠
      Plane.new (vpSample.row 3 + vpSample.row 2) := by
  intro h
  have hx := congrArg (fun p : Plane => p.normal_d.x) h
  simp only [Frustum.from_view_projection, Plane.new, vpSample, Mat4.row,
    Vec4.xyz, Vec3.length, Vec3.dot, show ((4 : Fin 6) : ℕ) = 4 from rfl] at hx
  norm_num [Vec3.extend] at hx

/-- C5: for every nonzero `view_backward`, the far plane (index 5) of
`Frustum::from_view_projection` has unit normal equal to the
normalization of `view_backward` and passes exactly through
`far_center = view_translation - far * view_backward`. -/
theorem far_plane_spec (vp : Mat4) (vt vb : Vec3) (far : ℝ) (hb : vb ≠ 0) :
    ((Frustum.from_view_projection vp vt vb far).planes 5).normal.dot
        ((Frustum.from_view_projection vp vt vb far).planes 5).normal = 1 ∧
    ((Frustum.from_view_projection vp vt vb far).planes 5).normal =
        vb.normalize ∧
    ((Frustum.from_view_projection vp vt vb far).planes 5).normal.dot
        (vt - far • vb) +
      ((Frustum.from_view_projection vp vt vb far).planes 5).d = 0 := by
  have hd : 0 < vb.dot vb := Vec3.dot_self_pos vb hb
  have hplane : (Frustum.from_view_projection vp vt vb far).planes 5 =
      Plane.new (vb.extend (-(vb.dot (vt - far • vb)))) := by
    simp [Frustum.from_view_projection, show ((5 : Fin 6) : ℕ) = 5 from rfl]
  have hn5 : ((Frustum.from_view_projection vp vt vb far).planes 5).normal =
      vb.length⁻¹ • vb := by
    rw [hplane]
    rfl
  have hL : vb.length * vb.length = vb.dot vb := by
    simp only [Vec3.length]
    exact Real.mul_self_sqrt (Vec3.dot_self_nonneg vb)
  have hLne : vb.length ≠ 0 := by
    have : 0 < vb.length := by
      simp only [Vec3.length]
      exact Real.sqrt_pos.mpr hd
    linarith
  refine ⟨?_, ?_, ?_⟩
  · rw [hn5]
    simp only [Vec3.dot, Vec3.smul_x, Vec3.smul_y, Vec3.smul_z]
    simp only [Vec3.dot] at hL
    field_simp
    linarith [hL]
  · rw [hn5]
    rfl
  · rw [hplane]
    simp only [Plane.new, Plane.normal, Plane.d, Vec4.smul4_x, Vec4.smul4_y,
      Vec4.smul4_z, Vec4.smul4_w, Vec3.extend, Vec3.dot]
    ring

/-- Witness for C5: concrete inputs with backward direction `(0,0,1)`. -/
theorem far_plane_spec_witness :
    (Vec3.mk 0 0 1 ≠ 0) ∧
    (((Frustum.from_view_projection Mat4.identity 0 (Vec3.mk 0 0 1) 5).planes
          5).normal.dot
        ((Frustum.from_view_projection Mat4.identity 0 (Vec3.mk 0 0 1) 5).planes
          5).normal = 1 ∧
      ((Frustum.from_view_projection Mat4.identity 0 (Vec3.mk 0 0 1) 5).planes
          5).normal = (Vec3.mk 0 0 1).normalize ∧
      ((Frustum.from_view_projection Mat4.identity 0 (Vec3.mk 0 0 1) 5).planes
          5).normal.dot ((0 : Vec3) - (5 : ℝ) • Vec3.mk 0 0 1) +
        ((Frustum.from_view_projection Mat4.identity 0 (Vec3.mk 0 0 1) 5).planes
          5).d = 0) := by
  have hb : Vec3.mk 0 0 1 ≠ 0 := by
    intro h
    have hz := congrArg Vec3.z h
    norm_num at hz
  exact ⟨hb, far_plane_spec Mat4.identity 0 (Vec3.mk 0 0 1) 5 hb⟩

/-- C8: `Transform::mul_transform` returns translation
`parent.transform_point(child.translation)` (scale, then rotation, then
translation), rotation `parent.rotation * child.rotation`, and scale the
componentwise product. -/
theorem transform_mul_transform_spec (parent child : Transform) :
    parent.mul_transform child =
      Transform.mk
        (parent.rotation.mulVec3 (parent.scale * child.translation) +
          parent.translation)
        (parent.rotation * child.rotation)
        (parent.scale * child.scale) ∧
    (∀ p : Vec3, parent.transform_point p =
      parent.rotation.mulVec3 (parent.scale * p) + parent.translation) :=
  ⟨rfl, fun _ => rfl⟩

lemma from_quat_mulVec3 (q : Quat) (h : q.normSq = 1) (v : Vec3) :
    (Mat3.from_quat q).mulVec3 v = q.mulVec3 v := by
  simp only [Quat.normSq] at h
  ext
  · simp only [Mat3.from_quat, Mat3.mulVec3, Quat.mulVec3, Vec3.dot, Vec3.cross,
      Vec3.add_x, Vec3.smul_x]
    linear_combination (-v.x) * h
  · simp only [Mat3.from_quat, Mat3.mulVec3, Quat.mulVec3, Vec3.dot, Vec3.cross,
      Vec3.add_y, Vec3.smul_y]
    linear_combination (-v.y) * h
  · simp only [Mat3.from_quat, Mat3.mulVec3, Quat.mulVec3, Vec3.dot, Vec3.cross,
      Vec3.add_z, Vec3.smul_z]
    linear_combination (-v.z) * h

lemma affine_mul_transform_point3 (a b : Affine3) (p : Vec3) :
    (a.mul b).transform_point3 p = a.transform_point3 (b.transform_point3 p) := by
  ext <;>
    (simp only [Affine3.mul, Affine3.transform_point3, Mat3.mul, Mat3.mulVec3,
      Vec3.add_x, Vec3.add_y, Vec3.add_z, Vec3.smul_x, Vec3.smul_y, Vec3.smul_z];
     ring)

lemma compute_affine_transform_point3 (t : Transform) (h : t.rotation.normSq = 1)
    (p : Vec3) :
    t.compute_affine.transform_point3 p = t.transform_point p := by
  have hm : t.compute_affine.matrix3.mulVec3 p =
      (Mat3.from_quat t.rotation).mulVec3 (t.scale * p) := by
    ext <;>
      (simp only [Transform.compute_affine, Affine3.from_scale_rotation_translation,
        Mat3.mulVec3, Vec3.add_x, Vec3.add_y, Vec3.add_z, Vec3.smul_x, Vec3.smul_y,
        Vec3.smul_z, Vec3.mul_x, Vec3.mul_y, Vec3.mul_z];
       ring)
  show t.compute_affine.matrix3.mulVec3 p + t.compute_affine.translation =
    t.transform_point p
  rw [hm, from_quat_mulVec3 t.rotation h]
  rfl

/-- C7: `GlobalTransform` composition is exact function composition: for
every `GlobalTransform` g, `Transform` t (with the unit rotation
quaternion of the data model) and point p,
`g.mul_transform(t).transform_point(p) = g.transform_point(t.transform_point(p))`. -/
theorem global_mul_transform_point (g : GlobalTransform) (t : Transform)
    (p : Vec3) (h : t.rotation.normSq = 1) :
    (g.mul_transform t).transform_point p =
      g.transform_point (t.transform_point p) := by
  show (g.affine.mul t.compute_affine).transform_point3 p =
    g.affine.transform_point3 (t.transform_point p)
  rw [affine_mul_transform_point3, compute_affine_transform_point3 t h]

/-- Witness for C7 at concrete inputs with the identity rotation. -/
theorem global_mul_transform_point_witness :
    (Quat.mk 0 0 0 1).normSq = 1 ∧
    ((GlobalTransform.mk ⟨Mat3.identity, ⟨1, 2, 3⟩⟩).mul_transform
        (Transform.mk ⟨4, 5, 6⟩ ⟨0, 0, 0, 1⟩ ⟨2, 1, 1⟩)).transform_point
        ⟨7, 8, 9⟩ =
      (GlobalTransform.mk ⟨Mat3.identity, ⟨1, 2, 3⟩⟩).transform_point
        ((Transform.mk ⟨4, 5, 6⟩ ⟨0, 0, 0, 1⟩ ⟨2, 1, 1⟩).transform_point
          ⟨7, 8, 9⟩) := by
  refine ⟨by norm_num [Quat.normSq], ?_⟩
  exact global_mul_transform_point ⟨⟨Mat3.identity, ⟨1, 2, 3⟩⟩⟩
    ⟨⟨4, 5, 6⟩, ⟨0, 0, 0, 1⟩, ⟨2, 1, 1⟩⟩ ⟨7, 8, 9⟩ (by norm_num [Quat.normSq])

lemma Vec3.dot_smul_right (u : Vec3) (c : ℝ) (a : Vec3) :
    u.dot (c • a) = c * u.dot a := by
  simp only [Vec3.dot, Vec3.smul_x, Vec3.smul_y, Vec3.smul_z]
  ring

lemma Vec3.dot_div_left (u : Vec3) (c : ℝ) (w : Vec3) :
    (u / c).dot w = u.dot w / c := by
  simp only [Vec3.dot, Vec3.div_x, Vec3.div_y, Vec3.div_z]
  ring

lemma Mat4.mul_mulVec4 (a b : Mat4) (u : Vec4) :
    (a.mul b).mulVec4 u = a.mulVec4 (b.mulVec4 u) := by
  ext <;>
    (simp only [Mat4.mul, Mat4.mulVec4, Vec4.add4_x, Vec4.add4_y, Vec4.add4_z,
      Vec4.add4_w, Vec4.smul4_x, Vec4.smul4_y, Vec4.smul4_z, Vec4.smul4_w];
     ring)

lemma plane_dot_extend (p : Plane) (c : Vec3) :
    p.normal_d.dot (c.extend 1) = p.normal.dot c + p.d := by
  simp only [Vec4.dot, Vec3.dot, Vec3.extend, Plane.normal, Plane.d]
  ring

/-- C9: rigid invariance of the box tests.  For any orthogonal linear map
R (dot products preserved), uniform scale s > 0 and translation v applied
identically to both operands — the frustum planes via
`Plane.mapSimilarity`, the matrix by pre-multiplication with the
similarity matrix, and the sphere by mapping center and scaling radius —
`Frustum::intersects_obb` and `Sphere::intersects_obb` are unchanged. -/
theorem similarity_invariance (s0 : ℝ) (R : Mat3) (v : Vec3)
    (hR : R.PreservesDot) (hs : 0 < s0) (f : Frustum) (aabb : Aabb)
    (M : Mat4) (hM : M.IsAffine) (b : Bool) (sp : Sphere) :
    (f.mapSimilarity s0 R v).intersects_obb aabb
        ((similarityMat4 s0 R v).mul M) b = f.intersects_obb aabb M b ∧
    (Sphere.mk (s0 • R.mulVec3 sp.center + v) (s0 * sp.radius)).intersects_obb
        aabb ((similarityMat4 s0 R v).mul M) = sp.intersects_obb aabb M := by
  obtain ⟨hMx, hMy, hMz, hMw⟩ := hM
  have hcol : ∀ j : Fin 3, worldAxes ((similarityMat4 s0 R v).mul M) j =
      s0 • R.mulVec3 (worldAxes M j) := by
    intro j
    fin_cases j <;>
      (ext <;>
        (simp only [worldAxes, similarityMat4, Mat4.mul, Mat4.mulVec4, Vec4.xyz,
          Mat3.mulVec3, Vec3.extend, hMx, hMy, hMz, Vec4.add4_x, Vec4.add4_y,
          Vec4.add4_z, Vec4.add4_w, Vec4.smul4_x, Vec4.smul4_y, Vec4.smul4_z,
          Vec4.smul4_w, Vec3.smul_x, Vec3.smul_y, Vec3.smul_z, Vec3.add_x,
          Vec3.add_y, Vec3.add_z];
         ring))
  have hcen : ((similarityMat4 s0 R v).mul M).transform_point3 aabb.center =
      s0 • R.mulVec3 (M.transform_point3 aabb.center) + v := by
    ext <;>
      (simp only [Mat4.transform_point3, similarityMat4, Mat4.mul, Mat4.mulVec4,
        Vec4.xyz, Mat3.mulVec3, Vec3.extend, hMx, hMy, hMz, hMw, Vec4.add4_x,
        Vec4.add4_y, Vec4.add4_z, Vec4.add4_w, Vec4.smul4_x, Vec4.smul4_y, Vec4.smul4_z,
        Vec4.smul4_w, Vec3.smul_x, Vec3.smul_y, Vec3.smul_z, Vec3.add_x, Vec3.add_y,
        Vec3.add_z];
       ring)
  have hnormal : ∀ i : Fin 6, ((f.mapSimilarity s0 R v).planes i).normal =
      R.mulVec3 (f.planes i).normal := fun _ => rfl
  have hrel : ∀ i : Fin 6,
      aabb.relative_radius ((f.mapSimilarity s0 R v).planes i).normal
        (worldAxes ((similarityMat4 s0 R v).mul M)) =
      s0 * aabb.relative_radius (f.planes i).normal (worldAxes M) := by
    intro i
    have e : ∀ j : Fin 3,
        ((f.mapSimilarity s0 R v).planes i).normal.dot
          (worldAxes ((similarityMat4 s0 R v).mul M) j) =
        s0 * ((f.planes i).normal.dot (worldAxes M j)) := by
      intro j
      rw [hcol j, hnormal i, Vec3.dot_smul_right, hR]
    rw [Aabb.relative_radius, Aabb.relative_radius, e 0, e 1, e 2]
    simp only [Vec3.abs, Vec3.dot, abs_mul, abs_of_pos hs]
    ring
  have hdot : ∀ i : Fin 6,
      ((f.mapSimilarity s0 R v).planes i).normal_d.dot
        ((((similarityMat4 s0 R v).mul M).transform_point3 aabb.center).extend 1) =
      s0 * ((f.planes i).normal_d.dot
        ((M.transform_point3 aabb.center).extend 1)) := by
    intro i
    rw [hcen, plane_dot_extend, plane_dot_extend, hnormal i]
    have hRc := hR (f.planes i).normal (M.transform_point3 aabb.center)
    have hmapd : ((f.mapSimilarity s0 R v).planes i).d =
        s0 * (f.planes i).d - (R.mulVec3 (f.planes i).normal).dot v := rfl
    rw [hmapd]
    simp only [Vec3.dot, Mat3.mulVec3, Vec3.add_x, Vec3.add_y, Vec3.add_z,
      Vec3.smul_x, Vec3.smul_y, Vec3.smul_z] at hRc ⊢
    linear_combination s0 * hRc
  constructor
  · simp only [Frustum.intersects_obb]
    refine congrArg _ (funext fun i => congrArg Bool.not ?_)
    refine decide_eq_decide.mpr ?_
    rw [hdot i, hrel i]
    constructor
    · intro h
      nlinarith
    · intro h
      nlinarith
  · have hw4 : (M.mulVec4 (aabb.center.extend 1)).w = 1 := by
      simp only [Mat4.mulVec4, Vec3.extend, Vec4.add4_w, Vec4.smul4_w, hMx, hMy,
        hMz, hMw]
      ring
    have hctr : (((similarityMat4 s0 R v).mul M).mulVec4
        (aabb.center.extend 1)).xyz =
        s0 • R.mulVec3 (M.mulVec4 (aabb.center.extend 1)).xyz + v := by
      rw [Mat4.mul_mulVec4]
      ext <;>
        (simp only [similarityMat4, Mat4.mulVec4, Vec4.xyz, Mat3.mulVec3,
          Vec3.extend, Vec4.add4_x, Vec4.add4_y, Vec4.add4_z, Vec4.add4_w,
          Vec4.smul4_x, Vec4.smul4_y, Vec4.smul4_z, Vec4.smul4_w, Vec3.smul_x,
          Vec3.smul_y, Vec3.smul_z, Vec3.add_x, Vec3.add_y, Vec3.add_z, hMx,
          hMy, hMz, hMw];
         ring)
    have hlen : ∀ w : Vec3, (s0 • R.mulVec3 w).length = s0 * w.length := by
      intro w
      have hRw := hR w w
      have hdd : (s0 • R.mulVec3 w).dot (s0 • R.mulVec3 w) =
          s0 ^ 2 * (w.dot w) := by
        simp only [Vec3.dot, Mat3.mulVec3, Vec3.add_x, Vec3.add_y, Vec3.add_z,
          Vec3.smul_x, Vec3.smul_y, Vec3.smul_z] at hRw ⊢
        linear_combination (s0 ^ 2) * hRw
      simp only [Vec3.length, hdd]
      rw [Real.sqrt_mul (sq_nonneg s0), Real.sqrt_sq hs.le]
    have hq : ∀ w : Vec3, (s0 • R.mulVec3 w) / (s0 * w.length) =
        R.mulVec3 w / w.length := by
      intro w
      ext <;>
        (simp only [Vec3.div_x, Vec3.div_y, Vec3.div_z, Vec3.smul_x, Vec3.smul_y,
          Vec3.smul_z];
         exact mul_div_mul_left _ _ (ne_of_gt hs))
    have hrelB : ∀ w : Vec3,
        aabb.relative_radius (R.mulVec3 w / w.length)
          (worldAxes ((similarityMat4 s0 R v).mul M)) =
        s0 * aabb.relative_radius (w / w.length) (worldAxes M) := by
      intro w
      have hreldot : ∀ j : Fin 3,
          (R.mulVec3 w / w.length).dot
            (worldAxes ((similarityMat4 s0 R v).mul M) j) =
          s0 * ((w / w.length).dot (worldAxes M j)) := by
        intro j
        rw [hcol j, Vec3.dot_smul_right, Vec3.dot_div_left, Vec3.dot_div_left,
          hR]
      rw [Aabb.relative_radius, Aabb.relative_radius, hreldot 0, hreldot 1,
        hreldot 2]
      simp only [Vec3.abs, Vec3.dot, abs_mul, abs_of_pos hs]
      ring
    have hv' : (((similarityMat4 s0 R v).mul M).mulVec4
        (aabb.center.extend 1)).xyz - (s0 • R.mulVec3 sp.center + v) =
        s0 • R.mulVec3 ((M.mulVec4 (aabb.center.extend 1)).xyz - sp.center) := by
      rw [hctr]
      ext <;>
        (simp only [Mat3.mulVec3, Vec3.sub_x, Vec3.sub_y, Vec3.sub_z, Vec3.add_x,
          Vec3.add_y, Vec3.add_z, Vec3.smul_x, Vec3.smul_y, Vec3.smul_z];
         ring)
    simp only [Sphere.intersects_obb]
    refine decide_eq_decide.mpr ?_
    rw [hv', hlen, hq, hrelB]
    constructor
    · intro h
      nlinarith
    · intro h
      nlinarith

/-- Witness for C9: identity rotation, unit scale, translation (1,0,0),
the box frustum, a unit AABB and a concrete sphere. -/
theorem similarity_invariance_witness :
    Mat3.identity.PreservesDot ∧ (0 : ℝ) < 1 ∧ Mat4.identity.IsAffine ∧
    ((cubeFrustum.mapSimilarity 1 Mat3.identity ⟨1, 0, 0⟩).intersects_obb
        (Aabb.mk 0 ⟨1, 1, 1⟩)
        ((similarityMat4 1 Mat3.identity ⟨1, 0, 0⟩).mul Mat4.identity) true =
      cubeFrustum.intersects_obb (Aabb.mk 0 ⟨1, 1, 1⟩) Mat4.identity true ∧
    (Sphere.mk ((1 : ℝ) • Mat3.identity.mulVec3 ⟨2, 2, 2⟩ + ⟨1, 0, 0⟩)
        (1 * 1)).intersects_obb (Aabb.mk 0 ⟨1, 1, 1⟩)
        ((similarityMat4 1 Mat3.identity ⟨1, 0, 0⟩).mul Mat4.identity) =
      (Sphere.mk ⟨2, 2, 2⟩ 1).intersects_obb (Aabb.mk 0 ⟨1, 1, 1⟩)
        Mat4.identity) := by
  have hR : Mat3.identity.PreservesDot := by
    intro u w
    simp only [Mat3.identity, Mat3.mulVec3, Vec3.dot, Vec3.add_x, Vec3.add_y,
      Vec3.add_z, Vec3.smul_x, Vec3.smul_y, Vec3.smul_z]
    ring
  have hM : Mat4.identity.IsAffine := ⟨rfl, rfl, rfl, rfl⟩
  exact ⟨hR, one_pos, hM,
    similarity_invariance 1 Mat3.identity ⟨1, 0, 0⟩ hR one_pos cubeFrustum
      (Aabb.mk 0 ⟨1, 1, 1⟩) Mat4.identity hM true (Sphere.mk ⟨2, 2, 2⟩ 1)⟩

/-- C10: with the rangefinder built from the view matrix that translates
by (0,0,-1), the distance of the identity matrix is 1 and the distance of
the translation by (0,0,1) is 2. -/
theorem rangefinder_distance_scenario :
    (ViewRangefinder3d.from_view_matrix
        (Mat4.from_translation ⟨0, 0, -1⟩)).distance Mat4.identity = 1 ∧
    (ViewRangefinder3d.from_view_matrix
        (Mat4.from_translation ⟨0, 0, -1⟩)).distance
        (Mat4.from_translation ⟨0, 0, 1⟩) = 2 := by
  constructor <;>
    norm_num [ViewRangefinder3d.from_view_matrix, ViewRangefinder3d.distance,
      Mat4.inverse, Mat4.det, det3, Mat4.from_translation, Mat4.identity,
      Mat4.row, Mat4.col, Vec4.dot]

lemma Vec3.dot_smul_left (c : ℝ) (a b : Vec3) :
    (c • a).dot b = c * a.dot b := by
  simp only [Vec3.dot, Vec3.smul_x, Vec3.smul_y, Vec3.smul_z]
  ring

lemma from_quat_col_x_dot (q : Quat) (h : q.normSq = 1) :
    (Mat3.from_quat q).x_axis.dot (Mat3.from_quat q).x_axis = 1 := by
  simp only [Quat.normSq] at h
  simp only [Mat3.from_quat, Vec3.dot]
  linear_combination (4 * q.y * q.y + 4 * q.z * q.z) * h

lemma from_quat_col_y_dot (q : Quat) (h : q.normSq = 1) :
    (Mat3.from_quat q).y_axis.dot (Mat3.from_quat q).y_axis = 1 := by
  simp only [Quat.normSq] at h
  simp only [Mat3.from_quat, Vec3.dot]
  linear_combination (4 * q.x * q.x + 4 * q.z * q.z) * h

lemma from_quat_col_z_dot (q : Quat) (h : q.normSq = 1) :
    (Mat3.from_quat q).z_axis.dot (Mat3.from_quat q).z_axis = 1 := by
  simp only [Quat.normSq] at h
  simp only [Mat3.from_quat, Vec3.dot]
  linear_combination (4 * q.x * q.x + 4 * q.y * q.y) * h

lemma from_quat_cross (q : Quat) (h : q.normSq = 1) :
    (Mat3.from_quat q).x_axis.cross (Mat3.from_quat q).y_axis =
      (Mat3.from_quat q).z_axis := by
  simp only [Quat.normSq] at h
  ext
  · simp only [Mat3.from_quat, Vec3.cross]
    linear_combination (4 * q.x * q.z) * h
  · simp only [Mat3.from_quat, Vec3.cross]
    linear_combination (4 * q.y * q.z) * h
  · simp only [Mat3.from_quat, Vec3.cross]
    linear_combination (4 * q.z * q.z) * h

lemma from_rotation_axes_of_unit (q : Quat) (h : q.normSq = 1) :
    Quat.from_rotation_axes (Mat3.from_quat q).x_axis (Mat3.from_quat q).y_axis
        (Mat3.from_quat q).z_axis = q ∨
    Quat.from_rotation_axes (Mat3.from_quat q).x_axis (Mat3.from_quat q).y_axis
        (Mat3.from_quat q).z_axis =
      Quat.mk (-q.x) (-q.y) (-q.z) (-q.w) := by
  simp only [Quat.normSq] at h
  simp only [Quat.from_rotation_axes]
  rcases le_or_lt ((Mat3.from_quat q).z_axis.z) 0 with h22 | h22
  · rw [if_pos h22]
    rcases le_or_lt ((Mat3.from_quat q).y_axis.y - (Mat3.from_quat q).x_axis.x) 0
      with hd | hd
    · rw [if_pos hd]
      have hE : 1 - (Mat3.from_quat q).z_axis.z -
          ((Mat3.from_quat q).y_axis.y - (Mat3.from_quat q).x_axis.x) =
          4 * q.x ^ 2 := by
        simp only [Mat3.from_quat]
        ring
      rw [hE]
      have hsq : Real.sqrt (4 * q.x ^ 2) = 2 * |q.x| := by
        rw [show (4 : ℝ) * q.x ^ 2 = (2 * |q.x|) ^ 2 by rw [mul_pow, sq_abs]; ring]
        exact Real.sqrt_sq (by positivity)
      rw [hsq]
      have hx1 : (1 : ℝ) ≤ 4 * q.x ^ 2 := by linarith [hE, h22, hd]
      have hxne : q.x ≠ 0 := by
        intro h0
        rw [h0] at hx1
        norm_num at hx1
      rcases hxne.lt_or_lt with hneg | hpos
      · right
        rw [abs_of_neg hneg]
        ext
        · show 4 * q.x ^ 2 * (0.5 / (2 * -q.x)) = -q.x
          field_simp
          ring
        · show ((Mat3.from_quat q).x_axis.y + (Mat3.from_quat q).y_axis.x) *
            (0.5 / (2 * -q.x)) = -q.y
          simp only [Mat3.from_quat]
          field_simp
          ring
        · show ((Mat3.from_quat q).x_axis.z + (Mat3.from_quat q).z_axis.x) *
            (0.5 / (2 * -q.x)) = -q.z
          simp only [Mat3.from_quat]
          field_simp
          ring
        · show ((Mat3.from_quat q).y_axis.z - (Mat3.from_quat q).z_axis.y) *
            (0.5 / (2 * -q.x)) = -q.w
          simp only [Mat3.from_quat]
          field_simp
          ring
      · left
        rw [abs_of_pos hpos]
        ext
        · show 4 * q.x ^ 2 * (0.5 / (2 * q.x)) = q.x
          field_simp
          ring
        · show ((Mat3.from_quat q).x_axis.y + (Mat3.from_quat q).y_axis.x) *
            (0.5 / (2 * q.x)) = q.y
          simp only [Mat3.from_quat]
          field_simp
          ring
        · show ((Mat3.from_quat q).x_axis.z + (Mat3.from_quat q).z_axis.x) *
            (0.5 / (2 * q.x)) = q.z
          simp only [Mat3.from_quat]
          field_simp
          ring
        · show ((Mat3.from_quat q).y_axis.z - (Mat3.from_quat q).z_axis.y) *
            (0.5 / (2 * q.x)) = q.w
          simp only [Mat3.from_quat]
          field_simp
          ring
    · rw [if_neg (not_le.mpr hd)]
      have hE : 1 - (Mat3.from_quat q).z_axis.z +
          ((Mat3.from_quat q).y_axis.y - (Mat3.from_quat q).x_axis.x) =
          4 * q.y ^ 2 := by
        simp only [Mat3.from_quat]
        ring
      rw [hE]
      have hsq : Real.sqrt (4 * q.y ^ 2) = 2 * |q.y| := by
        rw [show (4 : ℝ) * q.y ^ 2 = (2 * |q.y|) ^ 2 by rw [mul_pow, sq_abs]; ring]
        exact Real.sqrt_sq (by positivity)
      rw [hsq]
      have hy1 : (1 : ℝ) ≤ 4 * q.y ^ 2 := by linarith [hE, h22, hd]
      have hyne : q.y ≠ 0 := by
        intro h0
        rw [h0] at hy1
        norm_num at hy1
      rcases hyne.lt_or_lt with hneg | hpos
      · right
        rw [abs_of_neg hneg]
        ext
        · show ((Mat3.from_quat q).x_axis.y + (Mat3.from_quat q).y_axis.x) *
            (0.5 / (2 * -q.y)) = -q.x
          simp only [Mat3.from_quat]
          field_simp
          ring
        · show 4 * q.y ^ 2 * (0.5 / (2 * -q.y)) = -q.y
          field_simp
          ring
        · show ((Mat3.from_quat q).y_axis.z + (Mat3.from_quat q).z_axis.y) *
            (0.5 / (2 * -q.y)) = -q.z
          simp only [Mat3.from_quat]
          field_simp
          ring
        · show ((Mat3.from_quat q).z_axis.x - (Mat3.from_quat q).x_axis.z) *
            (0.5 / (2 * -q.y)) = -q.w
          simp only [Mat3.from_quat]
          field_simp
          ring
      · left
        rw [abs_of_pos hpos]
        ext
        · show ((Mat3.from_quat q).x_axis.y + (Mat3.from_quat q).y_axis.x) *
            (0.5 / (2 * q.y)) = q.x
          simp only [Mat3.from_quat]
          field_simp
          ring
        · show 4 * q.y ^ 2 * (0.5 / (2 * q.y)) = q.y
          field_simp
          ring
        · show ((Mat3.from_quat q).y_axis.z + (Mat3.from_quat q).z_axis.y) *
            (0.5 / (2 * q.y)) = q.z
          simp only [Mat3.from_quat]
          field_simp
          ring
        · show ((Mat3.from_quat q).z_axis.x - (Mat3.from_quat q).x_axis.z) *
            (0.5 / (2 * q.y)) = q.w
          simp only [Mat3.from_quat]
          field_simp
          ring
  · rw [if_neg (not_le.mpr h22)]
    rcases le_or_lt ((Mat3.from_quat q).y_axis.y + (Mat3.from_quat q).x_axis.x) 0
      with hs | hs
    · rw [if_pos hs]
      have hE : 1 + (Mat3.from_quat q).z_axis.z -
          ((Mat3.from_quat q).y_axis.y + (Mat3.from_quat q).x_axis.x) =
          4 * q.z ^ 2 := by
        simp only [Mat3.from_quat]
        ring
      rw [hE]
      have hsq : Real.sqrt (4 * q.z ^ 2) = 2 * |q.z| := by
        rw [show (4 : ℝ) * q.z ^ 2 = (2 * |q.z|) ^ 2 by rw [mul_pow, sq_abs]; ring]
        exact Real.sqrt_sq (by positivity)
      rw [hsq]
      have hz1 : (1 : ℝ) < 4 * q.z ^ 2 := by linarith [hE, h22, hs]
      have hzne : q.z ≠ 0 := by
        intro h0
        rw [h0] at hz1
        norm_num at hz1
      rcases hzne.lt_or_lt with hneg | hpos
      · right
        rw [abs_of_neg hneg]
        ext
        · show ((Mat3.from_quat q).x_axis.z + (Mat3.from_quat q).z_axis.x) *
            (0.5 / (2 * -q.z)) = -q.x
          simp only [Mat3.from_quat]
          field_simp
          ring
        · show ((Mat3.from_quat q).y_axis.z + (Mat3.from_quat q).z_axis.y) *
            (0.5 / (2 * -q.z)) = -q.y
          simp only [Mat3.from_quat]
          field_simp
          ring
        · show 4 * q.z ^ 2 * (0.5 / (2 * -q.z)) = -q.z
          field_simp
          ring
        · show ((Mat3.from_quat q).x_axis.y - (Mat3.from_quat q).y_axis.x) *
            (0.5 / (2 * -q.z)) = -q.w
          simp only [Mat3.from_quat]
          field_simp
          ring
      · left
        rw [abs_of_pos hpos]
        ext
        · show ((Mat3.from_quat q).x_axis.z + (Mat3.from_quat q).z_axis.x) *
            (0.5 / (2 * q.z)) = q.x
          simp only [Mat3.from_quat]
          field_simp
          ring
        · show ((Mat3.from_quat q).y_axis.z + (Mat3.from_quat q).z_axis.y) *
            (0.5 / (2 * q.z)) = q.y
          simp only [Mat3.from_quat]
          field_simp
          ring
        · show 4 * q.z ^ 2 * (0.5 / (2 * q.z)) = q.z
          field_simp
          ring
        · show ((Mat3.from_quat q).x_axis.y - (Mat3.from_quat q).y_axis.x) *
            (0.5 / (2 * q.z)) = q.w
          simp only [Mat3.from_quat]
          field_simp
          ring
    · rw [if_neg (not_le.mpr hs)]
      have hE : 1 + (Mat3.from_quat q).z_axis.z +
          ((Mat3.from_quat q).y_axis.y + (Mat3.from_quat q).x_axis.x) =
          4 * q.w ^ 2 := by
        simp only [Mat3.from_quat]
        linear_combination (-4 : ℝ) * h
      rw [hE]
      have hsq : Real.sqrt (4 * q.w ^ 2) = 2 * |q.w| := by
        rw [show (4 : ℝ) * q.w ^ 2 = (2 * |q.w|) ^ 2 by rw [mul_pow, sq_abs]; ring]
        exact Real.sqrt_sq (by positivity)
      rw [hsq]
      have hw1 : (1 : ℝ) < 4 * q.w ^ 2 := by linarith [hE, h22, hs]
      have hwne : q.w ≠ 0 := by
        intro h0
        rw [h0] at hw1
        norm_num at hw1
      rcases hwne.lt_or_lt with hneg | hpos
      · right
        rw [abs_of_neg hneg]
        ext
        · show ((Mat3.from_quat q).y_axis.z - (Mat3.from_quat q).z_axis.y) *
            (0.5 / (2 * -q.w)) = -q.x
          simp only [Mat3.from_quat]
          field_simp
          ring
        · show ((Mat3.from_quat q).z_axis.x - (Mat3.from_quat q).x_axis.z) *
            (0.5 / (2 * -q.w)) = -q.y
          simp only [Mat3.from_quat]
          field_simp
          ring
        · show ((Mat3.from_quat q).x_axis.y - (Mat3.from_quat q).y_axis.x) *
            (0.5 / (2 * -q.w)) = -q.z
          simp only [Mat3.from_quat]
          field_simp
          ring
        · show 4 * q.w ^ 2 * (0.5 / (2 * -q.w)) = -q.w
          field_simp
          ring
      · left
        rw [abs_of_pos hpos]
        ext
        · show ((Mat3.from_quat q).y_axis.z - (Mat3.from_quat q).z_axis.y) *
            (0.5 / (2 * q.w)) = q.x
          simp only [Mat3.from_quat]
          field_simp
          ring
        · show ((Mat3.from_quat q).z_axis.x - (Mat3.from_quat q).x_axis.z) *
            (0.5 / (2 * q.w)) = q.y
          simp only [Mat3.from_quat]
          field_simp
          ring
        · show ((Mat3.from_quat q).x_axis.y - (Mat3.from_quat q).y_axis.x) *
            (0.5 / (2 * q.w)) = q.z
          simp only [Mat3.from_quat]
          field_simp
          ring
        · show 4 * q.w ^ 2 * (0.5 / (2 * q.w)) = q.w
          field_simp
          ring

lemma identity_mul_transform (t : Transform) :
    (GlobalTransform.IDENTITY.mul_transform t).affine = t.compute_affine := by
  show Affine3.identity.mul t.compute_affine = t.compute_affine
  ext <;>
    (simp only [Affine3.identity, Affine3.mul, Mat3.identity, Mat3.mul,
      Mat3.mulVec3, Vec3.add_x, Vec3.add_y, Vec3.add_z, Vec3.smul_x, Vec3.smul_y,
      Vec3.smul_z, Vec3.zero_x, Vec3.zero_y, Vec3.zero_z];
     ring)

lemma compute_affine_scaled_col_x (t : Transform) :
    t.compute_affine.matrix3.x_axis = t.scale.x • (Mat3.from_quat t.rotation).x_axis :=
  rfl

lemma compute_affine_scaled_col_y (t : Transform) :
    t.compute_affine.matrix3.y_axis = t.scale.y • (Mat3.from_quat t.rotation).y_axis :=
  rfl

lemma compute_affine_scaled_col_z (t : Transform) :
    t.compute_affine.matrix3.z_axis = t.scale.z • (Mat3.from_quat t.rotation).z_axis :=
  rfl

lemma scaled_col_length (s : ℝ) (hs : 0 < s) (c : Vec3) (hc : c.dot c = 1) :
    (s • c).length = s := by
  have hdd : (s • c).dot (s • c) = s ^ 2 := by
    rw [Vec3.dot_smul_left, Vec3.dot_smul_right, hc]
    ring
  simp only [Vec3.length, hdd]
  exact Real.sqrt_sq hs.le

lemma cross_smul_smul (a b : ℝ) (u w : Vec3) :
    (a • u).cross (b • w) = (a * b) • u.cross w := by
  ext <;>
    (simp only [Vec3.cross, Vec3.smul_x, Vec3.smul_y, Vec3.smul_z];
     ring)

/-- C6 (amended): for every `Transform` whose rotation is a unit
quaternion and whose scale is componentwise positive,
`GlobalTransform::IDENTITY.mul_transform(t).compute_transform()` recovers
the translation and the scale exactly, and recovers the rotation up to
quaternion sign (`q` or `-q`, the same 3d rotation). -/
theorem roundtrip_compute_transform (t : Transform) (hq : t.rotation.normSq = 1)
    (hx : 0 < t.scale.x) (hy : 0 < t.scale.y) (hz : 0 < t.scale.z) :
    (GlobalTransform.IDENTITY.mul_transform t).compute_transform.translation =
        t.translation ∧
    (GlobalTransform.IDENTITY.mul_transform t).compute_transform.scale =
        t.scale ∧
    ((GlobalTransform.IDENTITY.mul_transform t).compute_transform.rotation =
        t.rotation ∨
      (GlobalTransform.IDENTITY.mul_transform t).compute_transform.rotation =
        Quat.mk (-t.rotation.x) (-t.rotation.y) (-t.rotation.z)
          (-t.rotation.w)) := by
  have hlx : t.compute_affine.matrix3.x_axis.length = t.scale.x := by
    rw [compute_affine_scaled_col_x]
    exact scaled_col_length _ hx _ (from_quat_col_x_dot _ hq)
  have hly : t.compute_affine.matrix3.y_axis.length = t.scale.y := by
    rw [compute_affine_scaled_col_y]
    exact scaled_col_length _ hy _ (from_quat_col_y_dot _ hq)
  have hlz : t.compute_affine.matrix3.z_axis.length = t.scale.z := by
    rw [compute_affine_scaled_col_z]
    exact scaled_col_length _ hz _ (from_quat_col_z_dot _ hq)
  have hdet : t.compute_affine.matrix3.determinant =
      t.scale.x * t.scale.y * t.scale.z := by
    show (t.compute_affine.matrix3.z_axis).dot
      ((t.compute_affine.matrix3.x_axis).cross (t.compute_affine.matrix3.y_axis)) = _
    rw [compute_affine_scaled_col_x, compute_affine_scaled_col_y,
      compute_affine_scaled_col_z, cross_smul_smul, from_quat_cross _ hq,
      Vec3.dot_smul_right, Vec3.dot_smul_left, from_quat_col_z_dot _ hq]
    ring
  have hsig : signum (t.compute_affine.matrix3.determinant) = 1 := by
    rw [hdet, signum, if_neg (not_lt.mpr (le_of_lt (by positivity)))]
  have hsval : (Vec3.mk
      (t.compute_affine.matrix3.x_axis.length *
        signum t.compute_affine.matrix3.determinant)
      t.compute_affine.matrix3.y_axis.length
      t.compute_affine.matrix3.z_axis.length) = t.scale := by
    rw [hsig, hlx, hly, hlz]
    ext <;> simp [mul_one]
  have hnorm : (Mat3.mk
      ((Vec3.mk
        (t.compute_affine.matrix3.x_axis.length *
          signum t.compute_affine.matrix3.determinant)
        t.compute_affine.matrix3.y_axis.length
        t.compute_affine.matrix3.z_axis.length).recip.x •
          t.compute_affine.matrix3.x_axis)
      ((Vec3.mk
        (t.compute_affine.matrix3.x_axis.length *
          signum t.compute_affine.matrix3.determinant)
        t.compute_affine.matrix3.y_axis.length
        t.compute_affine.matrix3.z_axis.length).recip.y •
          t.compute_affine.matrix3.y_axis)
      ((Vec3.mk
        (t.compute_affine.matrix3.x_axis.length *
          signum t.compute_affine.matrix3.determinant)
        t.compute_affine.matrix3.y_axis.length
        t.compute_affine.matrix3.z_axis.length).recip.z •
          t.compute_affine.matrix3.z_axis)) = Mat3.from_quat t.rotation := by
    rw [hsval]
    rw [compute_affine_scaled_col_x, compute_affine_scaled_col_y,
      compute_affine_scaled_col_z]
    ext <;>
      (simp only [Vec3.recip, Vec3.smul_x, Vec3.smul_y, Vec3.smul_z];
       field_simp)
  have hsrt : t.compute_affine.to_scale_rotation_translation =
      (t.scale,
        Quat.from_rotation_axes (Mat3.from_quat t.rotation).x_axis
          (Mat3.from_quat t.rotation).y_axis (Mat3.from_quat t.rotation).z_axis,
        t.translation) := by
    show (Vec3.mk
        (t.compute_affine.matrix3.x_axis.length *
          signum t.compute_affine.matrix3.determinant)
        t.compute_affine.matrix3.y_axis.length
        t.compute_affine.matrix3.z_axis.length,
      Quat.from_mat3 (Mat3.mk _ _ _), t.compute_affine.translation) = _
    rw [hsval]
    refine Prod.ext rfl (Prod.ext ?_ rfl)
    show Quat.from_mat3 _ = _
    rw [Quat.from_mat3]
    have := hnorm
    rw [hsval] at this
    rw [this]
  have hct : (GlobalTransform.IDENTITY.mul_transform t).compute_transform =
      Transform.mk t.translation
        (Quat.from_rotation_axes (Mat3.from_quat t.rotation).x_axis
          (Mat3.from_quat t.rotation).y_axis (Mat3.from_quat t.rotation).z_axis)
        t.scale := by
    simp only [GlobalTransform.compute_transform, identity_mul_transform, hsrt]
  rw [hct]
  exact ⟨rfl, rfl, from_rotation_axes_of_unit t.rotation hq⟩

/-- Counterexample for C6: the transform with unit rotation quaternion
`(0,0,0,-1)` (identity translation and scale) does not round-trip: the
decomposition returns the quaternion `(0,0,0,1)`. -/
theorem roundtrip_fails_at_negated_identity :
    (GlobalTransform.IDENTITY.mul_transform tNegIdentity).compute_transform ≠
      tNegIdentity := by
  intro hcontra
  have hw := congrArg (fun tr : Transform => tr.rotation.w) hcontra
  have h4 : Real.sqrt 4 = 2 := by
    rw [show (4 : ℝ) = 2 ^ 2 by norm_num]
    exact Real.sqrt_sq (by norm_num)
  simp only [GlobalTransform.compute_transform, GlobalTransform.mul_transform,
    GlobalTransform.IDENTITY, Affine3.identity, Affine3.mul,
    Transform.compute_affine, Affine3.from_scale_rotation_translation,
    Mat3.from_quat, Mat3.mul, Mat3.mulVec3, Mat3.identity,
    Affine3.to_scale_rotation_translation, Mat3.determinant, Vec3.cross,
    Vec3.dot, Vec3.length, signum, Vec3.recip, Quat.from_mat3,
    Quat.from_rotation_axes, tNegIdentity, Vec3.add_x, Vec3.add_y, Vec3.add_z,
    Vec3.smul_x, Vec3.smul_y, Vec3.smul_z, Vec3.zero_x, Vec3.zero_y,
    Vec3.zero_z] at hw
  norm_num [Real.sqrt_one, h4] at hw

/-- Witness for C6 at the identity rotation with positive scale. -/
theorem roundtrip_compute_transform_witness :
    (Quat.mk 0 0 0 1).normSq = 1 ∧ (0 : ℝ) < 2 ∧ (0 : ℝ) < 1 ∧
    ((GlobalTransform.IDENTITY.mul_transform
        (Transform.mk ⟨5, 6, 7⟩ ⟨0, 0, 0, 1⟩ ⟨2, 1, 1⟩)).compute_transform.translation =
          (Vec3.mk 5 6 7) ∧
      (GlobalTransform.IDENTITY.mul_transform
        (Transform.mk ⟨5, 6, 7⟩ ⟨0, 0, 0, 1⟩ ⟨2, 1, 1⟩)).compute_transform.scale =
          (Vec3.mk 2 1 1) ∧
      ((GlobalTransform.IDENTITY.mul_transform
        (Transform.mk ⟨5, 6, 7⟩ ⟨0, 0, 0, 1⟩ ⟨2, 1, 1⟩)).compute_transform.rotation =
          Quat.mk 0 0 0 1 ∨
       (GlobalTransform.IDENTITY.mul_transform
        (Transform.mk ⟨5, 6, 7⟩ ⟨0, 0, 0, 1⟩ ⟨2, 1, 1⟩)).compute_transform.rotation =
          Quat.mk (-(0 : ℝ)) (-(0 : ℝ)) (-(0 : ℝ)) (-(1 : ℝ)))) := by
  refine ⟨by norm_num [Quat.normSq], by norm_num, by norm_num, ?_⟩
  exact roundtrip_compute_transform ⟨⟨5, 6, 7⟩, ⟨0, 0, 0, 1⟩, ⟨2, 1, 1⟩⟩
    (by norm_num [Quat.normSq]) (by norm_num) (by norm_num) (by norm_num)
